import Mathlib

set_option maxRecDepth 4000

/-!
Shallow embedding of the rtop remote system monitor (Go sources under
`pkg/types`, `pkg/client`, `internal/ssh` and the cobra command entry point),
together with theorems settling the specification claims about it.

Machine integers are modelled as `Nat` with explicit `% 2 ^ 64` where Go's
`uint64` can wrap; `float32` arithmetic in the CPU-percentage computation is
modelled exactly over `ℚ` extended with IEEE `NaN`/`+Inf` marker values (the
claims settled here depend only on the zero/NaN/Inf structure of the results,
which rounding cannot change).  Fallible Go code is modelled with `Except`;
a Go runtime index-out-of-range fault is modelled as an `Except.error`.
-/

namespace Rtop

/-! ### Go string and number primitives -/

/-- Accumulate the fields of Go `strings.Fields`: maximal runs of
non-whitespace characters, with `cur` the current field reversed. -/
def fieldsAux (cur : List Char) : List Char → List (List Char)
  | [] => if cur = [] then [] else [cur.reverse]
  | c :: cs =>
    if c.isWhitespace then
      if cur = [] then fieldsAux [] cs else cur.reverse :: fieldsAux [] cs
    else fieldsAux (c :: cur) cs

/-- Model of Go `strings.Fields`: split around maximal runs of whitespace. -/
def goFields (s : String) : List String :=
  (fieldsAux [] s.data).map String.mk

/-- Finish one scanned line, stripping one trailing carriage return as
`bufio.ScanLines` does (`cur` is the line reversed). -/
def emitLine (cur : List Char) : List Char :=
  match cur with
  | '\r' :: rest => rest.reverse
  | _ => cur.reverse

/-- Accumulate the lines of a `bufio.Scanner` with split function
`ScanLines`: split on newline, no final empty line for a trailing newline,
no lines at all for empty input. -/
def linesAux (cur : List Char) : List Char → List (List Char)
  | [] => if cur = [] then [] else [emitLine cur]
  | c :: cs =>
    if c = '\n' then emitLine cur :: linesAux [] cs else linesAux (c :: cur) cs

/-- Model of reading a command's output line by line with `bufio.Scanner`. -/
def goLines (s : String) : List String :=
  (linesAux [] s.data).map String.mk

/-- Decimal accumulation over a character list; `none` on a non-digit. -/
def decVal? : List Char → Nat → Option Nat
  | [], acc => some acc
  | c :: cs, acc =>
    if c.isDigit then decVal? cs (acc * 10 + (c.toNat - 48)) else none

/-- Model of Go `strconv.ParseUint(s, 10, 64)`: a nonempty all-digit string
whose value fits in 64 bits; anything else (sign, empty, overflow) errors. -/
def ParseUint64 (s : String) : Option Nat :=
  match s.data with
  | [] => none
  | cs =>
    match decVal? cs 0 with
    | some v => if v < 2 ^ 64 then some v else none
    | none => none

/-- Model of Go `strconv.Atoi`: an optional single sign followed by a nonempty
digit string, with the value required to fit in a 64-bit signed int. -/
def Atoi (s : String) : Option Int :=
  match s.data with
  | [] => none
  | c :: cs =>
    let signed := c = '-' ∨ c = '+'
    let ds := if signed then cs else c :: cs
    match ds with
    | [] => none
    | _ =>
      match decVal? ds 0 with
      | some v =>
        let i : Int := if c = '-' then -(v : Int) else (v : Int)
        if -(2 ^ 63) ≤ i ∧ i < 2 ^ 63 then some i else none
      | none => none

/-- First-match association lookup, modelling access into a Go map rendered
as a list of key/value pairs (Go maps hold at most one value per key; the
theorems below are stated so that list order is irrelevant). -/
def alookup {α : Type} (k : String) : List (String × α) → Option α
  | [] => none
  | (k', v) :: rest => if k' = k then some v else alookup k rest

/-! ### Network data model, from `pkg/types/types.go` -/

/-- Address info for one interface (`types.NetIPAddr`). -/
structure NetIPAddr where
  ipv4 : String := ""
  ipv6 : String := ""
deriving DecidableEq, Repr

/-- Traffic counters for one interface (`types.NetDevInfo`). -/
structure NetDevInfo where
  rx : Nat := 0
  tx : Nat := 0
deriving DecidableEq, Repr

/-- Merged per-interface record (`types.NetInterface`). -/
structure NetInterface where
  addr : NetIPAddr
  dev : NetDevInfo
deriving DecidableEq, Repr

/-- Model of `types.MergeNetInterfaces`: iterate the keys of the address
table and keep a key only when the device table also has it (`if d, ok :=
dev[k]; ok`), attaching both records. -/
def MergeNetInterfaces : List (String × NetIPAddr) → List (String × NetDevInfo) →
    List (String × NetInterface)
  | [], _ => []
  | ka :: rest, dev =>
    match alookup ka.1 dev with
    | some d => (ka.1, ⟨ka.2, d⟩) :: MergeNetInterfaces rest dev
    | none => MergeNetInterfaces rest dev

/-! ### CPU model, from `pkg/types/types.go` and `pkg/client/client.go` -/

/-- Exact-value model of a Go `float32` as produced by `GetCPU`: either an
IEEE special value or an exact rational.  Division mirrors IEEE semantics on
the operands that occur (`0/0 = NaN`, `x/0 = +Inf` for `x > 0`); rounding of
ordinary quotients is not modelled, which the claims here do not depend on. -/
inductive GoFloat
  | nan
  | inf
  | val (q : ℚ)
deriving DecidableEq, Repr

/-- Model of `float32(x) / float32(total) * 100` on `uint64` inputs. -/
def pct (x total : Nat) : GoFloat :=
  if total = 0 then (if x = 0 then GoFloat.nan else GoFloat.inf)
  else GoFloat.val ((x : ℚ) / (total : ℚ) * 100)

/-- Raw CPU tick counters (`types.CPURaw`). -/
structure CPURaw where
  user : Nat := 0
  nice : Nat := 0
  system : Nat := 0
  idle : Nat := 0
  iowait : Nat := 0
  irq : Nat := 0
  softIrq : Nat := 0
  steal : Nat := 0
  guest : Nat := 0
  total : Nat := 0
deriving DecidableEq, Repr

/-- Derived CPU percentages (`types.CPUInfo`). -/
structure CPUInfo where
  user : GoFloat
  nice : GoFloat
  system : GoFloat
  idle : GoFloat
  ioWait : GoFloat
  irq : GoFloat
  softIRQ : GoFloat
  steal : GoFloat
  guest : GoFloat
deriving DecidableEq, Repr

/-- Go `uint64` addition. -/
def u64add (a b : Nat) : Nat := (a + b) % 2 ^ 64

/-- One iteration of the loop body of `parseCPUFields`: field `i` of the
line.  Every field that parses is added into `Total`; only positions 1–9 also
land in a named counter. -/
def parseCPUField (cpu : CPURaw) (i : Nat) (f : String) : CPURaw :=
  match ParseUint64 f with
  | none => cpu
  | some val =>
    let cpu := { cpu with total := u64add cpu.total val }
    match i with
    | 1 => { cpu with user := val }
    | 2 => { cpu with nice := val }
    | 3 => { cpu with system := val }
    | 4 => { cpu with idle := val }
    | 5 => { cpu with iowait := val }
    | 6 => { cpu with irq := val }
    | 7 => { cpu with softIrq := val }
    | 8 => { cpu with steal := val }
    | 9 => { cpu with guest := val }
    | _ => cpu

/-- Loop of `parseCPUFields` over fields `i, i+1, ...`. -/
def parseCPUFieldsAux (cpu : CPURaw) (i : Nat) : List String → CPURaw
  | [] => cpu
  | f :: rest => parseCPUFieldsAux (parseCPUField cpu i f) (i + 1) rest

/-- Model of `client.parseCPUFields`: indices run from 1 to the end of the
whitespace-split line. -/
def parseCPUFields (fields : List String) : CPURaw :=
  parseCPUFieldsAux {} 1 fields.tail

/-- Scan of `/proc/stat` lines in `GetCPU`: the first line whose first field
is exactly `cpu` is parsed; if none is, the raw counters stay zero. -/
def findCPURaw : List String → CPURaw
  | [] => {}
  | line :: rest =>
    let fields := goFields line
    if fields.head? = some "cpu" then parseCPUFields fields else findCPURaw rest

/-- Assemble the percentages exactly as `GetCPU` does, each counter divided
by the unguarded total. -/
def cpuInfoOf (raw : CPURaw) : CPUInfo :=
  { user := pct raw.user raw.total
    nice := pct raw.nice raw.total
    system := pct raw.system raw.total
    idle := pct raw.idle raw.total
    ioWait := pct raw.iowait raw.total
    irq := pct raw.irq raw.total
    softIRQ := pct raw.softIrq raw.total
    steal := pct raw.steal raw.total
    guest := pct raw.guest raw.total }

/-- Model of `client.GetCPU` applied to the text of `/proc/stat`. -/
def GetCPU (output : String) : CPUInfo :=
  cpuInfoOf (findCPURaw (goLines output))

/-! ### Filesystem table model, from `client.GetFSInfos` -/

/-- One filesystem row (`types.FSInfo`). -/
structure FSInfo where
  mountPoint : String
  total : Nat
  used : Nat
  free : Nat
deriving DecidableEq, Repr

/-- List indexing that faults like Go slice indexing: out of range is a
runtime error, modelled as `Except.error`. -/
def idx {α : Type} (l : List α) (k : Nat) : Except Unit α :=
  match l.get? k with
  | some v => Except.ok v
  | none => Except.error ()

/-- Loop body of `GetFSInfos` for one whitespace-split line, carrying the
column-shift flag.  The device test is `strings.Index(parts[0], "/dev/") == 0`
guarded by `n > 0`; every `parts[...]` access may fault. -/
def fsStep (flag : Nat) (acc : List FSInfo) (parts : List String) :
    Except Unit (Nat × List FSInfo) :=
  let dev : Bool :=
    match parts with
    | [] => false
    | p :: _ => "/dev/".data.isPrefixOf p.data
  if parts.length = 1 ∧ dev = true then Except.ok (1, acc)
  else
    let i := flag
    match idx parts (1 - i) with
    | Except.error e => Except.error e
    | Except.ok s1 =>
      match ParseUint64 s1 with
      | none => Except.ok (0, acc)
      | some total =>
        match idx parts (2 - i) with
        | Except.error e => Except.error e
        | Except.ok s2 =>
          match ParseUint64 s2 with
          | none => Except.ok (0, acc)
          | some used =>
            match idx parts (3 - i) with
            | Except.error e => Except.error e
            | Except.ok s3 =>
              match ParseUint64 s3 with
              | none => Except.ok (0, acc)
              | some free =>
                match idx parts (5 - i) with
                | Except.error e => Except.error e
                | Except.ok mp => Except.ok (0, acc ++ [⟨mp, total, used, free⟩])

/-- Scanner loop of `GetFSInfos` over the field-split lines. -/
def fsLoop (flag : Nat) (acc : List FSInfo) : List (List String) → Except Unit (List FSInfo)
  | [] => Except.ok acc
  | parts :: rest =>
    match fsStep flag acc parts with
    | Except.error e => Except.error e
    | Except.ok (flag', acc') => fsLoop flag' acc' rest

/-- Model of `client.GetFSInfos` applied to the `df` output text. -/
def GetFSInfos (output : String) : Except Unit (List FSInfo) :=
  fsLoop 0 [] ((goLines output).map goFields)

/-! ### Memory model, from `types.MemInfo` and `client.GetMemInfo` -/

/-- Byte counts (`types.MemInfo`); all Go fields are `uint64`. -/
structure MemInfo where
  total : Nat := 0
  free : Nat := 0
  buffers : Nat := 0
  cached : Nat := 0
  swapTotal : Nat := 0
  swapFree : Nat := 0
deriving DecidableEq, Repr

/-- Go `uint64` subtraction (wraps modulo `2 ^ 64`; arguments `< 2 ^ 64`). -/
def u64sub (a b : Nat) : Nat := (a + 2 ^ 64 - b) % 2 ^ 64

/-- Model of `MemInfo.Used`: the literal `m.Total - m.Free - m.Buffers -
m.Cached` chain of `uint64` subtractions. -/
def MemInfo.Used (m : MemInfo) : Nat :=
  u64sub (u64sub (u64sub m.total m.free) m.buffers) m.cached

/-- Loop body of `GetMemInfo` for one line: exactly three fields, a numeric
second field scaled by 1024 (in `uint64`), assigned by the key switch. -/
def memLine (m : MemInfo) (parts : List String) : MemInfo :=
  match parts with
  | [k, v, _] =>
    match ParseUint64 v with
    | none => m
    | some val0 =>
      let val := (val0 * 1024) % 2 ^ 64
      if k = "MemTotal:" then { m with total := val }
      else if k = "MemFree:" then { m with free := val }
      else if k = "Buffers:" then { m with buffers := val }
      else if k = "Cached:" then { m with cached := val }
      else if k = "SwapTotal:" then { m with swapTotal := val }
      else if k = "SwapFree:" then { m with swapFree := val }
      else m
  | _ => m

/-- Model of `client.GetMemInfo` applied to the `/proc/meminfo` text. -/
def GetMemInfo (output : String) : MemInfo :=
  ((goLines output).map goFields).foldl memLine {}

/-! ### Connection establishment, from `internal/ssh/client.go` -/

/-- Model of `ssh.NewClient`'s control flow over abstract dial outcomes.
Transports are abstract handles (`Nat`).  `provided` is the caller-supplied
client, `agentDial` the outcome of `tryAgentConnect` (which is `some` exactly
when `SSH_AUTH_SOCK` is advertised, the agent socket dials, and the ssh dial
through the agent succeeds), and `mainDial` the outcome of the key/password
handshake.  The Go return `(*Client, error)` is `Except Unit (Option Nat)`:
an `ok none` is the literal `return nil, nil`. -/
def NewClient (provided : Option Nat) (agentDial : Option Nat)
    (mainDial : Except Unit Nat) : Except Unit (Option Nat) :=
  match provided with
  | some c => Except.ok (some c)
  | none =>
    match agentDial with
    | some _ => Except.ok none
    | none =>
      match mainDial with
      | Except.error e => Except.error e
      | Except.ok c => Except.ok (some c)

/-! ### Host alias resolution, from `internal/ssh/config.go`

`GetSshEntry` matches patterns with Go's `path.Match`, embedded below over
rune (`Char`) sequences.  The loops of `path.Match` are written with explicit
fuel; every loop of the Go code consumes at least one character of the
component it scans, so a fuel of `length + 1` is exact. -/

/-- One alias section (`ssh.Section`). -/
structure Section where
  hostname : String := ""
  port : Int := 0
  user : String := ""
  identityFile : String := ""
deriving DecidableEq, Repr

/-- Model of `Section.getFull`: per field, the section's value when nonempty
(positive for the port), else the default section's, else zero.  The `name`
argument is unused by the Go body as well. -/
def Section.getFull (s : Section) (_name : String) (d : Section) :
    String × Int × String × String :=
  let host := if s.hostname.length > 0 then s.hostname
    else if d.hostname.length > 0 then d.hostname else ""
  let port := if s.port > 0 then s.port
    else if d.port > 0 then d.port else 0
  let user := if s.user.length > 0 then s.user
    else if d.user.length > 0 then d.user else ""
  let keyfile := if s.identityFile.length > 0 then s.identityFile
    else if d.identityFile.length > 0 then d.identityFile else ""
  (host, port, user, keyfile)

/-- Model of `path.Match`'s `getEsc`: one (possibly backslash-escaped) range
endpoint; errors on a leading `-` or `]`, a dangling escape, or a class that
ends right after the endpoint. -/
def getEsc : List Char → Except Unit (Char × List Char)
  | [] => Except.error ()
  | c :: rest =>
    if c = '-' ∨ c = ']' then Except.error ()
    else
      match (if c = '\\' then rest else c :: rest) with
      | [] => Except.error ()
      | r :: rest' => if rest' = [] then Except.error () else Except.ok (r, rest')

/-- Model of the range loop inside `matchChunk`'s `[` case: consume range
endpoints until a closing `]` (only after at least one range), recording
whether the rune `r` fell in any range. -/
def matchRanges : Nat → List Char → Char → Bool → Nat → Except Unit (List Char × Bool)
  | 0, _, _, _, _ => Except.error ()
  | fuel + 1, chunk, r, m, nrange =>
    if chunk.head? = some ']' ∧ nrange > 0 then Except.ok (chunk.tail, m)
    else
      match getEsc chunk with
      | Except.error e => Except.error e
      | Except.ok (lo, chunk1) =>
        match chunk1 with
        | '-' :: chunk2 =>
          match getEsc chunk2 with
          | Except.error e => Except.error e
          | Except.ok (hi, chunk3) =>
            matchRanges fuel chunk3 r (m || decide (lo ≤ r ∧ r ≤ hi)) (nrange + 1)
        | _ => matchRanges fuel chunk1 r (m || decide (lo ≤ r ∧ r ≤ lo)) (nrange + 1)

/-- Model of `path.Match`'s `matchChunk` loop.  `failed` records a mismatch
whose reporting is deferred until the rest of the chunk is checked for
syntactic validity, exactly as in the Go code. -/
def matchChunkAux : Nat → List Char → List Char → Bool → Except Unit (List Char × Bool)
  | 0, _, _, _ => Except.error ()
  | fuel + 1, chunk, s, failed0 =>
    match chunk with
    | [] => if failed0 then Except.ok ([], false) else Except.ok (s, true)
    | c :: rest =>
      let failed := failed0 || decide (s = [])
      if c = '[' then
        let rs : Char × List Char :=
          if failed then (Char.ofNat 0, s)
          else
            match s with
            | [] => (Char.ofNat 0, [])
            | x :: xs => (x, xs)
        let nc : Bool × List Char :=
          match rest with
          | '^' :: cr => (true, cr)
          | _ => (false, rest)
        match matchRanges (nc.2.length + 1) nc.2 rs.1 false 0 with
        | Except.error e => Except.error e
        | Except.ok (chunk2, m) =>
          matchChunkAux fuel chunk2 rs.2 (failed || decide (m = nc.1))
      else if c = '?' then
        if failed then matchChunkAux fuel rest s true
        else
          match s with
          | [] => Except.error ()
          | x :: xs => matchChunkAux fuel rest xs (decide (x = '/'))
      else if c = '\\' then
        match rest with
        | [] => Except.error ()
        | d :: rest2 =>
          if failed then matchChunkAux fuel rest2 s true
          else
            match s with
            | [] => Except.error ()
            | x :: xs => matchChunkAux fuel rest2 xs (decide (d ≠ x))
      else
        if failed then matchChunkAux fuel rest s true
        else
          match s with
          | [] => Except.error ()
          | x :: xs => matchChunkAux fuel rest xs (decide (c ≠ x))

/-- Model of `path.Match`'s `matchChunk`: on success the unconsumed suffix of
the name and whether the chunk matched; `Except.error` is `ErrBadPattern`. -/
def matchChunk (chunk s : List Char) : Except Unit (List Char × Bool) :=
  matchChunkAux (chunk.length + 1) chunk s false

/-- Scan of one literal chunk of a pattern, stopping at a `*` that is not
inside a bracket class (`scanChunk`'s labelled scan). -/
def scanChunkCore : Bool → List Char → List Char × List Char
  | _, [] => ([], [])
  | inrange, c :: rest =>
    if c = '\\' then
      match rest with
      | [] => ([c], [])
      | d :: rest2 =>
        let cr := scanChunkCore inrange rest2
        (c :: d :: cr.1, cr.2)
    else if c = '*' ∧ inrange = false then ([], c :: rest)
    else
      let inrange' := if c = '[' then true else if c = ']' then false else inrange
      let cr := scanChunkCore inrange' rest
      (c :: cr.1, cr.2)

/-- Strip the leading run of `*`s, reporting whether there was one. -/
def dropStars : List Char → Bool × List Char
  | '*' :: rest => (true, (dropStars rest).2)
  | l => (false, l)

/-- Model of `path.Match`'s `scanChunk`: leading-star flag, next literal
chunk, remaining pattern. -/
def scanChunk (pattern : List Char) : Bool × List Char × List Char :=
  let sp := dropStars pattern
  let cr := scanChunkCore false sp.2
  (sp.1, cr.1, cr.2)

/-- Model of the validity sweep `path.Match` runs over the rest of the
pattern before returning an unmatched result. -/
def checkRemainder : Nat → List Char → Except Unit Unit
  | 0, _ => Except.error ()
  | _ + 1, [] => Except.ok ()
  | fuel + 1, pattern =>
    let scr := scanChunk pattern
    match matchChunk scr.2.1 [] with
    | Except.error e => Except.error e
    | Except.ok _ => checkRemainder fuel scr.2.2

/-- Model of the star-backtracking loop of `path.Match`: try the chunk at
every later position of the name, never skipping past a `/`.  `some t`
requests continuing the outer loop with name suffix `t`. -/
def starLoop (chunk patRest : List Char) : List Char → Except Unit (Option (List Char))
  | [] => Except.ok none
  | c :: rest =>
    if c = '/' then Except.ok none
    else
      match matchChunk chunk rest with
      | Except.error e => Except.error e
      | Except.ok (t, ok) =>
        if ok then
          if patRest = [] ∧ t ≠ [] then starLoop chunk patRest rest
          else Except.ok (some t)
        else starLoop chunk patRest rest

/-- Outer loop of `path.Match` over the pattern's chunks. -/
def matchLoop : Nat → List Char → List Char → Except Unit Bool
  | 0, _, _ => Except.error ()
  | fuel + 1, pattern, name =>
    match pattern with
    | [] => Except.ok (decide (name = []))
    | _ =>
      let scr := scanChunk pattern
      let star := scr.1
      let chunk := scr.2.1
      let rest := scr.2.2
      if star = true ∧ chunk = [] then Except.ok (decide ('/' ∉ name))
      else
        match matchChunk chunk name with
        | Except.error e => Except.error e
        | Except.ok (t, ok) =>
          if ok ∧ (t = [] ∨ rest ≠ []) then matchLoop fuel rest t
          else if star then
            match starLoop chunk rest name with
            | Except.error e => Except.error e
            | Except.ok (some t') => matchLoop fuel rest t'
            | Except.ok none =>
              match checkRemainder (rest.length + 1) rest with
              | Except.error e => Except.error e
              | Except.ok _ => Except.ok false
          else
            match checkRemainder (rest.length + 1) rest with
            | Except.error e => Except.error e
            | Except.ok _ => Except.ok false

/-- Model of Go `path.Match` on strings as rune sequences. -/
def pathMatch (pattern name : String) : Except Unit Bool :=
  matchLoop (pattern.data.length + 1) pattern.data name.data

/-- The guard `GetSshEntry` applies to each table entry: `path.Match`
returned `true` with no error. -/
def matchOk (pattern name : String) : Bool :=
  match pathMatch pattern name with
  | Except.ok true => true
  | _ => false

/-- The default section `GetSshEntry` builds first: the literal name as
hostname, replaced wholesale by the `*` section when one exists. -/
def defaultSection (table : List (String × Section)) (name : String) : Section :=
  match alookup "*" table with
  | some defcfg => defcfg
  | none => { hostname := name }

/-- Model of `ssh.GetSshEntry`: exact key first, then the first entry whose
pattern glob-matches, else the default section's raw fields.  The Go map's
iteration order is unspecified; the list order stands in for it, and the
theorems below avoid depending on it. -/
def GetSshEntry (table : List (String × Section)) (name : String) :
    String × Int × String × String :=
  let d := defaultSection table name
  match alookup name table with
  | some s => s.getFull name d
  | none =>
    match table.find? (fun e => matchOk e.1 name) with
    | some e => e.2.getFull name d
    | none => (d.hostname, d.port, d.user, d.identityFile)

/-! ### CLI target parsing, from the cobra command file -/

/-- Split a character list at every occurrence of `sep`, modelling Go
`strings.Split` with a one-character separator (`cur` is reversed). -/
def splitOnChar (sep : Char) (cur : List Char) : List Char → List (List Char)
  | [] => [cur.reverse]
  | c :: cs =>
    if c = sep then cur.reverse :: splitOnChar sep [] cs
    else splitOnChar sep (c :: cur) cs

/-- Rejoin fragments with the separator, for recovering the suffix after the
first occurrence (`strings.Index` + slicing). -/
def joinChar (sep : Char) : List (List Char) → List Char
  | [] => []
  | [x] => x
  | x :: xs => x ++ sep :: joinChar sep xs

/-- Model of `parseAddrAsUserHostAddrPort`: split user from the part after
the first `@` (the `host` local stays empty when there is no `@`), then split
the host on `:` and accept a port only when that yields exactly two parts. -/
def parseAddrAsUserHostAddrPort (flagHost : String) :
    Except String (String × String × Int) :=
  let uh : String × String :=
    if flagHost.data.contains '@' then
      let parts := splitOnChar '@' [] flagHost.data
      (String.mk (parts.headD []), String.mk (joinChar '@' parts.tail))
    else ("", "")
  let user := uh.1
  let host := uh.2
  let p := splitOnChar ':' [] host.data
  if p.length = 2 then
    match Atoi (String.mk (p.getD 1 [])) with
    | none => Except.error "bad port"
    | some port =>
      if port ≤ 0 ∨ port ≥ 65536 then Except.error "port out of range"
      else Except.ok (user, String.mk (p.headD []), port)
  else Except.ok (user, host, 0)

/-! ### Harvest, from `client.GetStats`

The eight probes run concurrently (semgroup), each writing its own result
variable; `Wait` blocks for all of them and yields a non-nil error exactly
when some probe failed.  Since no two probes share a variable, the harvest is
modelled by its eight independent outcomes; a failed probe leaves its
variable at the zero value, as the Go getters return zero values alongside
their errors. -/

/-- Load averages (`types.Loads`). -/
structure Loads where
  load1 : String := ""
  load5 : String := ""
  load15 : String := ""
  runningProcs : String := ""
  totalProcs : String := ""
deriving DecidableEq, Repr

/-- The zero `CPUInfo`, as left by a failed CPU probe (`float32` zeros). -/
def zeroCPUInfo : CPUInfo :=
  ⟨GoFloat.val 0, GoFloat.val 0, GoFloat.val 0, GoFloat.val 0, GoFloat.val 0,
    GoFloat.val 0, GoFloat.val 0, GoFloat.val 0, GoFloat.val 0⟩

/-- Snapshot (`types.Stats`); `uptime` is a `time.Duration` (int64 ns). -/
structure Stats where
  uptime : Int
  hostname : String
  loads : Loads
  cpu : CPUInfo
  mem : MemInfo
  fsInfos : List FSInfo
  netInterface : List (String × NetInterface)
deriving DecidableEq, Repr

/-- Outcome of each of the eight probes of one harvest. -/
structure ProbeResults where
  uptime : Except String Int
  hostname : Except String String
  loads : Except String Loads
  mem : Except String MemInfo
  fsInfos : Except String (List FSInfo)
  netIPAddrs : Except String (List (String × NetIPAddr))
  netDevInfos : Except String (List (String × NetDevInfo))
  cpu : Except String CPUInfo

/-- The value a probe's result variable holds after `Wait`. -/
def orZero {α : Type} (r : Except String α) (z : α) : α :=
  match r with
  | Except.ok v => v
  | Except.error _ => z

/-- The error list a probe contributes to the semgroup's aggregate. -/
def errOf {α : Type} : Except String α → List String
  | Except.error e => [e]
  | Except.ok _ => []

/-- All probe errors of one harvest. -/
def errsOf (r : ProbeResults) : List String :=
  errOf r.uptime ++ errOf r.hostname ++ errOf r.loads ++ errOf r.mem ++
    errOf r.fsInfos ++ errOf r.netIPAddrs ++ errOf r.netDevInfos ++ errOf r.cpu

/-- Model of `client.GetStats`: build the snapshot from the eight result
variables (merging the two network tables), returning it together with the
aggregate error, which is non-nil exactly when some probe failed. -/
def GetStats (r : ProbeResults) : Stats × Option String :=
  ({ uptime := orZero r.uptime 0
     hostname := orZero r.hostname ""
     loads := orZero r.loads {}
     cpu := orZero r.cpu zeroCPUInfo
     mem := orZero r.mem {}
     fsInfos := orZero r.fsInfos []
     netInterface := MergeNetInterfaces (orZero r.netIPAddrs [])
       (orZero r.netDevInfos []) },
   match errsOf r with
   | [] => none
   | es => some (String.intercalate "; " es))

/-! ## Theorems settling the claims -/

/-- An association lookup succeeds exactly on the keys of the list. -/
theorem alookup_isSome_iff {α : Type} (k : String) (l : List (String × α)) :
    (alookup k l).isSome = true ↔ k ∈ l.map Prod.fst := by
  induction l with
  | nil => simp [alookup]
  | cons kv rest ih =>
    obtain ⟨k', v⟩ := kv
    by_cases h : k' = k
    · subst h; simp [alookup]
    · simp only [alookup, if_neg h, ih, List.map_cons, List.mem_cons]
      constructor
      · exact fun hm => Or.inr hm
      · rintro (he | hm)
        · exact absurd he.symm h
        · exact hm

/-- Pointwise description of the merged table: a key is bound exactly when
both source tables bind it, and then to the pair of their records. -/
theorem MergeNetInterfaces_alookup (addr : List (String × NetIPAddr))
    (dev : List (String × NetDevInfo)) (k : String) :
    alookup k (MergeNetInterfaces addr dev) =
      (match alookup k addr, alookup k dev with
       | some a, some d => some (⟨a, d⟩ : NetInterface)
       | _, _ => none) := by
  induction addr with
  | nil =>
    cases alookup k dev <;> rfl
  | cons ka rest ih =>
    obtain ⟨k', a⟩ := ka
    by_cases hk : k' = k
    · subst hk
      cases hd : alookup k' dev with
      | none => simp [MergeNetInterfaces, hd, alookup, ih]
      | some d => simp [MergeNetInterfaces, hd, alookup]
    · cases hd : alookup k' dev with
      | none => simpa [MergeNetInterfaces, hd, alookup, hk] using ih
      | some d => simpa [MergeNetInterfaces, hd, alookup, hk] using ih

/-- C1 counterexample: an interface present in the address table but absent
from the device table is dropped by `MergeNetInterfaces`, so the merged key
set is not `keys(A)`. -/
theorem MergeNetInterfaces_drops_addr_only_key :
    MergeNetInterfaces [("eth0", { ipv4 := "10.0.0.1" })] [] = []
    ∧ "eth0" ∈ ([("eth0", ({ ipv4 := "10.0.0.1" } : NetIPAddr))].map Prod.fst) := by
  exact ⟨rfl, by decide⟩

/-- C1 (amended): for every address table A and device table D, the merged
map's key set is exactly `keys(A) ∩ keys(D)` — an interface in D but not in A
never appears, and an interface in A but not in D is dropped as well — and a
surviving key is bound to its address record with the device record
attached. -/
theorem MergeNetInterfaces_key_set (addr : List (String × NetIPAddr))
    (dev : List (String × NetDevInfo)) (k : String) :
    (k ∈ (MergeNetInterfaces addr dev).map Prod.fst ↔
      k ∈ addr.map Prod.fst ∧ k ∈ dev.map Prod.fst)
    ∧ alookup k (MergeNetInterfaces addr dev) =
        (match alookup k addr, alookup k dev with
         | some a, some d => some (⟨a, d⟩ : NetInterface)
         | _, _ => none) := by
  refine ⟨?_, MergeNetInterfaces_alookup addr dev k⟩
  rw [← alookup_isSome_iff, ← alookup_isSome_iff, ← alookup_isSome_iff,
    MergeNetInterfaces_alookup]
  cases alookup k addr <;> cases alookup k dev <;> simp

/-- C2: at the failing input — a cpu line whose nine counters are all zero,
hence total zero — every percentage field `GetCPU` produces is IEEE NaN
(`0/0`), not the claimed 0; the same happens when no `cpu` line is present at
all. -/
theorem GetCPU_zero_total_is_nan :
    GetCPU "cpu 0 0 0 0 0 0 0 0 0\n" =
      ⟨GoFloat.nan, GoFloat.nan, GoFloat.nan, GoFloat.nan, GoFloat.nan,
        GoFloat.nan, GoFloat.nan, GoFloat.nan, GoFloat.nan⟩
    ∧ GetCPU "" =
      ⟨GoFloat.nan, GoFloat.nan, GoFloat.nan, GoFloat.nan, GoFloat.nan,
        GoFloat.nan, GoFloat.nan, GoFloat.nan, GoFloat.nan⟩
    ∧ GoFloat.nan ≠ GoFloat.val 0 := by
  exact ⟨rfl, rfl, by decide⟩

/-- C3: whenever the agent path authenticates (an agent endpoint is
advertised and the dial through it succeeds, yielding transport `t`),
`NewClient` returns `nil, nil` — no transport and no error — discarding the
established connection, whatever the key/password handshake would return. -/
theorem NewClient_agent_discards_transport (t : Nat) (d : Except Unit Nat) :
    NewClient none (some t) d = Except.ok none := rfl

/-- C4: if exactly one of the eight probes fails, `GetStats` returns a
non-nil aggregate error together with a snapshot in which the field of every
probe that succeeded holds that probe's parsed value (the merged network
table requiring both of its source probes). -/
theorem GetStats_oneFailure (r : ProbeResults) (h : (errsOf r).length = 1) :
    ((GetStats r).2).isSome = true
    ∧ (∀ v, r.uptime = Except.ok v → (GetStats r).1.uptime = v)
    ∧ (∀ v, r.hostname = Except.ok v → (GetStats r).1.hostname = v)
    ∧ (∀ v, r.loads = Except.ok v → (GetStats r).1.loads = v)
    ∧ (∀ v, r.mem = Except.ok v → (GetStats r).1.mem = v)
    ∧ (∀ v, r.fsInfos = Except.ok v → (GetStats r).1.fsInfos = v)
    ∧ (∀ v, r.cpu = Except.ok v → (GetStats r).1.cpu = v)
    ∧ (∀ a d, r.netIPAddrs = Except.ok a → r.netDevInfos = Except.ok d →
        (GetStats r).1.netInterface = MergeNetInterfaces a d) := by
  refine ⟨?_, ?_, ?_, ?_, ?_, ?_, ?_, ?_⟩
  · cases he : errsOf r with
    | nil => rw [he] at h; simp at h
    | cons e es => simp [GetStats, he]
  · intro v hv; simp [GetStats, orZero, hv]
  · intro v hv; simp [GetStats, orZero, hv]
  · intro v hv; simp [GetStats, orZero, hv]
  · intro v hv; simp [GetStats, orZero, hv]
  · intro v hv; simp [GetStats, orZero, hv]
  · intro v hv; simp [GetStats, orZero, hv]
  · intro a d ha hd; simp [GetStats, orZero, ha, hd]

/-- Probe outcomes with the CPU probe failing and the other seven parsed. -/
def probeRunOneFailure : ProbeResults :=
  { uptime := Except.ok 5000000000
    hostname := Except.ok "host1"
    loads := Except.ok {}
    mem := Except.ok {}
    fsInfos := Except.ok []
    netIPAddrs := Except.ok [("eth0", {})]
    netDevInfos := Except.ok [("eth0", {})]
    cpu := Except.error "exit status 1" }

/-- C4 witness: a run with exactly the CPU probe failing. -/
theorem GetStats_oneFailure_witness :
    (errsOf probeRunOneFailure).length = 1
    ∧ ((GetStats probeRunOneFailure).2).isSome = true :=
  ⟨by decide, (GetStats_oneFailure probeRunOneFailure (by decide)).1⟩

/-- C6: the filesystem parser is not total: it faults with an index out of
range on an input containing a blank line, and on a line consisting of a
single token that does not begin with `/dev/`, instead of skipping them. -/
theorem GetFSInfos_faults_on_malformed :
    GetFSInfos "\n" = Except.error () ∧ GetFSInfos "x\n" = Except.error () :=
  ⟨rfl, rfl⟩

/-- C7: `Used` wraps around `uint64` when Free exceeds Total: a meminfo
report with Total 0 KiB and Free 1 KiB makes `Used()` equal `2^64 − 1024`
rather than a signed or zero-saturated result. -/
theorem MemInfo_Used_wraps :
    MemInfo.Used (GetMemInfo "MemTotal: 0 kB\nMemFree: 1 kB\n") = 2 ^ 64 - 1024
    ∧ 2 ^ 64 - 1024 ≠ 0 := by
  exact ⟨rfl, by decide⟩

/-- C10: with no `@` in the positional target, the parser never assigns the
host (and silently ignores any port suffix), returning an empty host with no
error instead of the host unchanged. -/
theorem parseAddr_drops_host_without_at :
    parseAddrAsUserHostAddrPort "example.com" = Except.ok ("", "", 0)
    ∧ parseAddrAsUserHostAddrPort "example.com:8080" = Except.ok ("", "", 0)
    ∧ ("" : String) ≠ "example.com" := by
  exact ⟨rfl, rfl, by decide⟩

/-- The loop body of `parseCPUFields` changes `Total` by the parsed value
whatever the field index is. -/
theorem parseCPUField_total (cpu : CPURaw) (i : Nat) (f : String) :
    (parseCPUField cpu i f).total =
      (match ParseUint64 f with
       | none => cpu.total
       | some v => u64add cpu.total v) := by
  unfold parseCPUField
  cases ParseUint64 f with
  | none => rfl
  | some v =>
    rcases i with _ | _ | _ | _ | _ | _ | _ | _ | _ | _ | i <;> rfl

/-- Running the field loop accumulates every parsed value into `Total`. -/
theorem parseCPUFieldsAux_total (fs : List String) : ∀ (cpu : CPURaw) (i : Nat),
    (parseCPUFieldsAux cpu i fs).total =
      (fs.filterMap ParseUint64).foldl u64add cpu.total := by
  induction fs with
  | nil => intro cpu i; rfl
  | cons f rest ih =>
    intro cpu i
    rw [parseCPUFieldsAux, ih, List.filterMap_cons]
    cases hf : ParseUint64 f with
    | none => rw [parseCPUField_total, hf]
    | some v => rw [List.foldl_cons, parseCPUField_total, hf]

/-- Folding 64-bit additions is addition of the sum modulo `2 ^ 64`. -/
theorem foldl_u64add_eq (l : List Nat) : ∀ a : Nat, a < 2 ^ 64 →
    l.foldl u64add a = (a + l.sum) % 2 ^ 64 := by
  induction l with
  | nil =>
    intro a ha
    rw [List.foldl_nil, List.sum_nil, Nat.add_zero, Nat.mod_eq_of_lt ha]
  | cons x xs ih =>
    intro a ha
    rw [List.foldl_cons, List.sum_cons,
      ih (u64add a x) (Nat.mod_lt _ (by norm_num)), u64add, Nat.mod_add_mod,
      Nat.add_assoc]

/-- C8 counterexample: a cpu line carrying a tenth counter (guest_nice):
`Total` comes out as 10, while the nine named counters sum to 9. -/
theorem parseCPUFields_total_counterexample :
    (parseCPUFields ["cpu", "1", "1", "1", "1", "1", "1", "1", "1", "1", "1"]).total = 10
    ∧ (parseCPUFields ["cpu", "1", "1", "1", "1", "1", "1", "1", "1", "1", "1"]).user
      + (parseCPUFields ["cpu", "1", "1", "1", "1", "1", "1", "1", "1", "1", "1"]).nice
      + (parseCPUFields ["cpu", "1", "1", "1", "1", "1", "1", "1", "1", "1", "1"]).system
      + (parseCPUFields ["cpu", "1", "1", "1", "1", "1", "1", "1", "1", "1", "1"]).idle
      + (parseCPUFields ["cpu", "1", "1", "1", "1", "1", "1", "1", "1", "1", "1"]).iowait
      + (parseCPUFields ["cpu", "1", "1", "1", "1", "1", "1", "1", "1", "1", "1"]).irq
      + (parseCPUFields ["cpu", "1", "1", "1", "1", "1", "1", "1", "1", "1", "1"]).softIrq
      + (parseCPUFields ["cpu", "1", "1", "1", "1", "1", "1", "1", "1", "1", "1"]).steal
      + (parseCPUFields ["cpu", "1", "1", "1", "1", "1", "1", "1", "1", "1", "1"]).guest = 9
    ∧ (10 : Nat) ≠ 9 := by
  exact ⟨rfl, rfl, by decide⟩

/-- C8 (amended): `Total` is the 64-bit sum of every field after the first
that parses as an unsigned integer — the nine named counters plus any
trailing numeric fields such as guest_nice. -/
theorem parseCPUFields_total_eq_sum (fields : List String) :
    (parseCPUFields fields).total =
      (fields.tail.filterMap ParseUint64).sum % 2 ^ 64 := by
  unfold parseCPUFields
  rw [parseCPUFieldsAux_total]
  have h0 : (({} : CPURaw)).total = 0 := rfl
  rw [h0, foldl_u64add_eq _ 0 (by norm_num), Nat.zero_add]

/-- C9: a filesystem entry rendered on one line (device, total, used, free,
use%, mount point) and the same entry rendered on two lines (device alone,
then the remaining columns shifted one position left) parse to the same
single `FSInfo`: same mount point, total, used and free. -/
theorem GetFSInfos_layout_equiv (d t u f p m : String) (tv uv fv : Nat)
    (hd : "/dev/".data.isPrefixOf d.data = true)
    (ht : ParseUint64 t = some tv) (hu : ParseUint64 u = some uv)
    (hf : ParseUint64 f = some fv) :
    fsLoop 0 [] [[d, t, u, f, p, m]] = Except.ok [⟨m, tv, uv, fv⟩]
    ∧ fsLoop 0 [] [[d], [t, u, f, p, m]] = Except.ok [⟨m, tv, uv, fv⟩] := by
  constructor
  · simp [fsLoop, fsStep, idx, ht, hu, hf]
  · simp [fsLoop, fsStep, idx, hd, ht, hu, hf]

/-- C9 witness: both renderings of one concrete `df` entry. -/
theorem GetFSInfos_layout_equiv_witness :
    fsLoop 0 [] [["/dev/sda1", "1000", "600", "400", "60%", "/"]] =
      Except.ok [⟨"/", 1000, 600, 400⟩]
    ∧ fsLoop 0 [] [["/dev/sda1"], ["1000", "600", "400", "60%", "/"]] =
      Except.ok [⟨"/", 1000, 600, 400⟩] :=
  GetFSInfos_layout_equiv "/dev/sda1" "1000" "600" "400" "60%" "/" 1000 600 400
    (by decide) (by decide) (by decide) (by decide)

/-- C5 counterexample: a table holding only a `*` section, and the requested
name `a/b`, which nothing glob-matches (`path.Match`'s `*` does not cross
`/`).  There is no exact and no glob match, yet resolution returns the `*`
section's empty hostname and its port — not the literal requested name. -/
theorem GetSshEntry_star_fallback_counterexample :
    alookup "a/b" [("*", ({ port := 2222 } : Section))] = none
    ∧ (∀ e ∈ [("*", ({ port := 2222 } : Section))], matchOk e.1 "a/b" = false)
    ∧ GetSshEntry [("*", ({ port := 2222 } : Section))] "a/b" = ("", 2222, "", "")
    ∧ ("" : String) ≠ "a/b" := by
  refine ⟨rfl, ?_, rfl, by decide⟩
  intro e he
  simp only [List.mem_singleton] at he
  subst he
  rfl

/-- C5 (amended): an exact-name section strictly wins — the result is its
`getFull` against the default section, ignoring every glob entry; and when
neither an exact nor a glob match exists, the result is the `*` section's
four fields verbatim when a `*` section exists (its hostname, even empty,
replacing the literal name), and the literal requested name with zero
port/user/identity file only when there is no `*` section. -/
theorem GetSshEntry_resolution (table : List (String × Section)) (name : String) :
    (∀ s, alookup name table = some s →
      GetSshEntry table name = s.getFull name (defaultSection table name))
    ∧ (alookup name table = none →
      (∀ e ∈ table, matchOk e.1 name = false) →
      GetSshEntry table name =
        (match alookup "*" table with
         | some d => (d.hostname, d.port, d.user, d.identityFile)
         | none => (name, 0, "", ""))) := by
  constructor
  · intro s hs
    simp [GetSshEntry, hs]
  · intro hnone hglob
    have hfind : table.find? (fun e => matchOk e.1 name) = none := by
      apply List.find?_eq_none.mpr
      intro e he
      simp [hglob e he]
    simp only [GetSshEntry, hnone, hfind, defaultSection]
    cases alookup "*" table <;> rfl

/-- C5 witness: with a single glob section that does not match, resolution
of `db` falls back to the literal name and zero connection fields. -/
theorem GetSshEntry_resolution_witness :
    GetSshEntry [("web*", ({ hostname := "w", port := 22 } : Section))] "db" =
      ("db", 0, "", "") :=
  (GetSshEntry_resolution [("web*", ({ hostname := "w", port := 22 } : Section))] "db").2
    (by decide)
    (by
      intro e he
      simp only [List.mem_singleton] at he
      subst he
      rfl)

end Rtop
